import Mathlib

/-!
Shallow embedding of the Google-Contacts-to-Notion sync scripts
(`apps-script/GoogleContactsToNotion.gs`, which contains an optimized
parallel variant and a parallel-plus-retry variant, and the sequential
variant shipped as a plain script file), together with theorems checking
the natural-language specification against this embedding.

JavaScript-specific semantics (truthiness of strings and numbers,
`||` fallbacks, optional chaining) are made explicit by small helper
functions so that each Lean definition can be diffed line by line
against the script it embeds.
-/

/-- JS `a || d` for an optionally-absent string `a`: the fallback `d` is
used when `a` is `undefined` or the empty string (both falsy). -/
def jsOrStr (a : Option String) (d : String) : String :=
  match a with
  | none => d
  | some s => if s = "" then d else s

/-- JS truthiness test for an optionally-absent string. -/
def jsTruthyStr (a : Option String) : Bool :=
  match a with
  | none => false
  | some s => s != ""

/-- JS `a || d` for an optionally-absent number: `undefined` and `0` are
falsy (`bday.year || 1900`). -/
def jsOrNat (a : Option Nat) (d : Nat) : Nat :=
  match a with
  | none => d
  | some 0 => d
  | some n => n

/-- JS falsiness of `PropertiesService...getProperty(...)`: the guard
`if (!notionApiKey)` fires when the property is absent (`null`) or the
empty string. -/
def jsFalsyKey (a : Option String) : Bool :=
  match a with
  | none => true
  | some s => s == ""

/-- JS `String(n).padStart(2, "0")`. -/
def padStart2 (s : String) : String :=
  if s.length = 0 then "00"
  else if s.length = 1 then "0" ++ s
  else s

/-- `Except` result inspected as a boolean (`true` when no exception was
raised). -/
def exceptOk {ε α : Type} : Except ε α → Bool
  | .ok _ => true
  | .error _ => false

/-! ## Data model

`Person` records returned by the Google People API, restricted to the
fields the scripts read (`names,emailAddresses,phoneNumbers,
organizations,birthdays,addresses`).  Every field reached through JS
optional chaining is an `Option` or a `List`. -/

structure GName where
  displayName : Option String
deriving DecidableEq, Repr

structure GDate where
  year : Option Nat
  month : Nat
  day : Nat
deriving DecidableEq, Repr

structure GBirthday where
  date : Option GDate
deriving DecidableEq, Repr

structure GEmail where
  value : Option String
deriving DecidableEq, Repr

structure GPhone where
  value : Option String
deriving DecidableEq, Repr

structure GOrganization where
  name : Option String
  title : Option String
deriving DecidableEq, Repr

structure GAddress where
  streetAddress : Option String
  city : Option String
  region : Option String
  postalCode : Option String
  country : Option String
deriving DecidableEq, Repr

/-- A Google contact as consumed by the scripts.  `resourceName` is the
stable identity key (`people/c...`). -/
structure Contact where
  resourceName : String
  names : List GName
  emailAddresses : List GEmail
  phoneNumbers : List GPhone
  organizations : List GOrganization
  birthdays : List GBirthday
  addresses : List GAddress
deriving DecidableEq, Repr

/-- Convenience constructor for a contact carrying only its identity key
(used by concrete instances below). -/
def mkContact (rn : String) : Contact :=
  ⟨rn, [], [], [], [], [], []⟩

/-- One Notion property value as built by `buildNotionProperties`. -/
inductive PropValue where
  | title (content : String)
  | richText (content : String)
  | url (u : String)
  | email (e : String)
  | phoneNumber (p : String)
  | date (startDate : String)
deriving DecidableEq, Repr

/-- `contact.names?.[0]?.displayName || "Unknown"` — the display identity
used both for the Name title property and for error log lines. -/
def displayOf (c : Contact) : String :=
  jsOrStr (c.names.head?.bind GName.displayName) "Unknown"

/-- The generated Contact Link URL:
`https://contacts.google.com/person/` followed by the resource name with
its `people/` prefix removed (`resourceName.replace("people/", "")`;
resource names contain the pattern once, so replacing every occurrence
coincides with JS first-occurrence replace). -/
def googleLink (rn : String) : String :=
  "https://contacts.google.com/person/" ++ (rn.replace "people/" "")

/-- Optional property segment: present when the source value is truthy
(JS `if (x) props[k] = ...`). -/
def optStrProp (key : String) (v : Option String) (mk : String → PropValue) :
    List (String × PropValue) :=
  match v with
  | none => []
  | some s => if s = "" then [] else [(key, mk s)]

/-- `[addr.streetAddress, addr.city, addr.region, addr.postalCode,
addr.country].filter(Boolean).join(", ")`. -/
def fullAddressOf (a : GAddress) : String :=
  String.intercalate ", "
    (([a.streetAddress, a.city, a.region, a.postalCode, a.country].filterMap id).filter
      (fun s => s ≠ ""))

/-- Properties contributed by `contact.emailAddresses?.[0]?.value`. -/
def emailProps (c : Contact) : List (String × PropValue) :=
  match c.emailAddresses.head? with
  | none => []
  | some e => optStrProp "Email" e.value PropValue.email

/-- Properties contributed by `contact.phoneNumbers?.[0]?.value`. -/
def phoneProps (c : Contact) : List (String × PropValue) :=
  match c.phoneNumbers.head? with
  | none => []
  | some p => optStrProp "Phone" p.value PropValue.phoneNumber

/-- Properties contributed by `contact.organizations?.[0]`. -/
def orgProps (c : Contact) : List (String × PropValue) :=
  match c.organizations.head? with
  | none => []
  | some o =>
    optStrProp "Company" o.name PropValue.richText ++
    optStrProp "Job Title" o.title PropValue.richText

/-- Properties contributed by `contact.birthdays?.[0]?.date`. -/
def bdayProps (c : Contact) : List (String × PropValue) :=
  match c.birthdays.head?.bind GBirthday.date with
  | none => []
  | some d =>
    [("Birthdate", PropValue.date
      (toString (jsOrNat d.year 1900) ++ "-" ++
       padStart2 (toString d.month) ++ "-" ++ padStart2 (toString d.day)))]

/-- Properties contributed by `contact.addresses?.[0]`. -/
def addrProps (c : Contact) : List (String × PropValue) :=
  match c.addresses.head? with
  | none => []
  | some a =>
    (if fullAddressOf a = "" then []
     else [("Full Address", PropValue.richText (fullAddressOf a))]) ++
    optStrProp "Country" a.country PropValue.richText

/-- `buildNotionProperties(contact)` — the field mapper, identical in all
three script variants.  The three unconditional entries come first (JS
object-literal insertion order), the conditional ones are appended in
source order. -/
def buildNotionProperties (c : Contact) : List (String × PropValue) :=
  [("Name", PropValue.title (displayOf c)),
   ("Google Contact ID", PropValue.richText c.resourceName),
   ("Contact Link", PropValue.url (googleLink c.resourceName))] ++
  emailProps c ++ phoneProps c ++ orgProps c ++ bdayProps c ++ addrProps c

/-! ## Batch dispatcher

The HTTP layer is abstracted by response oracles: a per-contact status
code for a settled `fetchAll`, and a `FetchResult` (status or thrown
transport exception) for a single `UrlFetchApp.fetch`. -/

/-- Outcome of one `UrlFetchApp.fetch` call: an HTTP status code, or a
thrown transport exception with its message. -/
inductive FetchResult where
  | status (code : Nat)
  | raised (msg : String)
deriving DecidableEq, Repr

/-- The `responses.forEach` classification loop of `processBatch` in the
retry variant: a 200 response increments `created`, any other status
pushes the contact onto `failedContacts` (original batch order is
preserved). `ok c` stands for `response-for-c .getResponseCode() === 200`. -/
def classifyResponses (ok : Contact → Bool) : List Contact → Nat × List Contact
  | [] => (0, [])
  | c :: rest =>
    let r := classifyResponses ok rest
    if ok c then (r.1 + 1, r.2) else (r.1, c :: r.2)

/-- The sequential fallback loop of `processBatch`: one `fetch` per
contact; status 200 counts created, any other status or a thrown
per-record exception pushes the contact onto `failedContacts`. -/
def seqFallback (fetchOne : Contact → FetchResult) : List Contact → Nat × List Contact
  | [] => (0, [])
  | c :: rest =>
    let r := seqFallback fetchOne rest
    match fetchOne c with
    | .status code => if code = 200 then (r.1 + 1, r.2) else (r.1, c :: r.2)
    | .raised _ => (r.1, c :: r.2)

/-- `processBatch(apiKey, batch)` of the retry variant, one attempt:
tries the parallel `fetchAll` path; if `fetchAll` itself raises
(`par = .error msg`), logs one batch-level line and falls back to the
sequential loop.  Returns `(created, failedContacts, log lines)`. -/
def processBatchOnce (par : Except String (Contact → Nat))
    (fetchOne : Contact → FetchResult) (batch : List Contact) :
    Nat × List Contact × List String :=
  match par with
  | .ok code =>
    let r := classifyResponses (fun c => code c == 200) batch
    (r.1, r.2, [])
  | .error msg =>
    let r := seqFallback fetchOne batch
    (r.1, r.2, ["Parallel request failed: " ++ msg ++ ". Trying sequential..."])

/-- The error log line of the optimized variant's response loop:
`Error for ${displayName || 'Unknown'}: ${body.message || code}`. -/
def errorLineFor (c : Contact) (code : Nat) (msg : Option String) : String :=
  "Error for " ++ displayOf c ++ ": " ++ jsOrStr msg (toString code)

/-- The `responses.forEach` loop of the optimized variant's
`syncContactsToNotion` (no in-run retry): 200 counts created; 429 counts
failed with no log line; any other status counts failed and emits the
diagnostic line.  `respond c` is the pair (status code, parsed body
message) of the response for `c`. -/
def classifyResponsesOpt (respond : Contact → Nat × Option String) :
    List Contact → Nat × Nat × List String
  | [] => (0, 0, [])
  | c :: rest =>
    let r := classifyResponsesOpt respond rest
    let code := (respond c).1
    if code = 200 then (r.1 + 1, r.2.1, r.2.2)
    else if code = 429 then (r.1, r.2.1 + 1, r.2.2)
    else (r.1, r.2.1 + 1, errorLineFor c code (respond c).2 :: r.2.2)

/-! ## Retry coordinator -/

/-- Result of `processBatchWithRetry`, instrumented with the full retry
history: `trace` lists, per attempt in order, the contacts dispatched on
that attempt; `finalRetry` is `contactsToRetry` after the loop exits
(its length is the reported `failed` count). -/
structure RetryOut where
  created : Nat
  finalRetry : List Contact
  trace : List (List Contact)
deriving DecidableEq, Repr

/-- The `for (attempt = 1; attempt <= MAX_RETRIES && contactsToRetry.length > 0 ...)`
loop of `processBatchWithRetry`.  `rem` is the number of attempts still
allowed (`MAX_RETRIES + 1 - attempt`), `attempt` the 1-based attempt
number fed to the response oracle.  Each attempt runs the parallel path
of `processBatch` and retries exactly its `failedContacts`. -/
def retryAux (respond : Nat → Contact → Nat) :
    Nat → Nat → List Contact → RetryOut
  | 0, _, toRetry => ⟨0, toRetry, []⟩
  | _ + 1, _, [] => ⟨0, [], []⟩
  | rem + 1, attempt, c :: rest =>
    let pr := classifyResponses (fun x => respond attempt x == 200) (c :: rest)
    let r := retryAux respond rem (attempt + 1) pr.2
    ⟨pr.1 + r.created, r.finalRetry, (c :: rest) :: r.trace⟩

/-- `processBatchWithRetry(apiKey, batch)` with retry ceiling `maxR`
(`MAX_RETRIES = 3` in the script): returns `{ created, failed }` where
`failed = contactsToRetry.length` after the loop. -/
def processBatchWithRetry (respond : Nat → Contact → Nat) (maxR : Nat)
    (batch : List Contact) : Nat × Nat :=
  let o := retryAux respond maxR 1 batch
  (o.created, o.finalRetry.length)

/-! ## Sync driver loop -/

/-- `googleContacts.filter(c => !existingContacts[c.resourceName])` —
the pending set handed to the dispatch loop, in source enumeration
order.  `existing` is the key set of the map built by
`getExistingNotionContacts`. -/
def contactsToSync (existing : List String) (google : List Contact) : List Contact :=
  google.filter (fun c => !(existing.contains c.resourceName))

/-- The batch slicing of the dispatch loop
(`for (i = 0; i < N; i += BATCH_SIZE) ... slice(i, i + BATCH_SIZE)`),
written with explicit fuel so it is structurally recursive and
kernel-evaluable; the fuel is the list length, sufficient whenever
`0 < w`. -/
def chunkAux {α : Type} (w : Nat) : Nat → List α → List (List α)
  | 0, _ => []
  | _ + 1, [] => []
  | fuel + 1, x :: xs =>
    (x :: xs).take w :: chunkAux w fuel ((x :: xs).drop w)

/-- Partition of the pending list into consecutive batches of size `w`. -/
def chunkList {α : Type} (w : Nat) (l : List α) : List (List α) :=
  chunkAux w l.length l

/-- Result of the driver's batch loop: the batches actually dispatched
(one `fetchAll` window each, in order) and the elapsed wall-clock time
when the loop returned. -/
structure LoopResult where
  groups : List (List Contact)
  finalElapsed : Nat
deriving DecidableEq, Repr

/-- The driver's batch loop with its timeout guard:
at each iteration boundary, if elapsed time exceeds the budget `B`
(`Date.now() - startTime > MAX_EXECUTION_TIME_MS`) the run returns with
whatever was processed; otherwise one batch window of `w` contacts is
dispatched and the clock advances by that window's wall-clock duration
`dur 0` (covering the window's requests, its retries, and the
inter-batch pause).  `dur (j+1)` is the duration of the following
windows; fuel as in `chunkAux`. -/
def syncLoopAux (B w : Nat) : (Nat → Nat) → Nat → Nat → List Contact → LoopResult
  | _, _, t, [] => ⟨[], t⟩
  | _, 0, t, _ => ⟨[], t⟩
  | dur, fuel + 1, t, c :: rest =>
    if B < t then ⟨[], t⟩
    else
      let r := syncLoopAux B w (fun j => dur (j + 1)) fuel (t + dur 0) ((c :: rest).drop w)
      ⟨(c :: rest).take w :: r.groups, r.finalElapsed⟩

/-- The driver's batch loop, started at elapsed time `t` with the full
pending list. -/
def syncLoop (B w : Nat) (dur : Nat → Nat) (t : Nat) (pending : List Contact) :
    LoopResult :=
  syncLoopAux B w dur pending.length t pending

/-- Every create request issued by one run: for each batch window the
loop dispatched, all attempts of its `processBatchWithRetry` call, in
order.  `respond attempt c` is the status of the create request for `c`
on that attempt. -/
def runRequests (B w maxR t : Nat) (dur : Nat → Nat)
    (respond : Nat → Contact → Nat) (existing : List String)
    (google : List Contact) : List Contact :=
  (((syncLoop B w dur t (contactsToSync existing google)).groups).map
    (fun g => (retryAux respond maxR 1 g).trace.flatten)).flatten

/-! ## Run prelude and configuration guard -/

/-- The query URL `https://api.notion.com/v1/databases/{id}/query`. -/
def queryUrl (dbId : String) : String :=
  "https://api.notion.com/v1/databases/" ++ dbId ++ "/query"

/-- The page-creation URL. -/
def pagesUrl : String :=
  "https://api.notion.com/v1/pages"

/-- Externally visible steps of one `syncContactsToNotion` run, in
order. -/
inductive SyncEvent where
  | queryExisting (url : String)
  | fetchSource
  | createRequest (url : String) (databaseId : String) (contact : Contact)
deriving DecidableEq, Repr

/-- `syncContactsToNotion` of the retry variant as an event trace:

* reads `NOTION_API_KEY` and throws `"NOTION_API_KEY not set in Script
  Properties."` when it is falsy — before the sink query, the source
  fetch, and every create request (an `.error` result carries no
  events);
* otherwise queries the sink (URL interpolates the `NOTION_DATABASE_ID`
  constant `dbId` — the script has no guard on it), fetches the source,
  filters to the pending set, and dispatches batches until done or over
  budget.  Per-record failures only affect counters, never abort. -/
def syncContactsToNotionRun (apiKey : Option String) (dbId : String)
    (existing : List String) (google : List Contact)
    (B w maxR t : Nat) (dur : Nat → Nat) (respond : Nat → Contact → Nat) :
    Except String (List SyncEvent) :=
  if jsFalsyKey apiKey then
    Except.error "NOTION_API_KEY not set in Script Properties."
  else
    Except.ok
      (SyncEvent.queryExisting (queryUrl dbId) :: SyncEvent.fetchSource ::
        (runRequests B w maxR t dur respond existing google).map
          (fun c => SyncEvent.createRequest pagesUrl dbId c))

/-! ## Scheduler glue -/

/-- External collaborators of `continueSyncIfNeeded`, each able to throw
(`Except.error` carries the exception message): the sink query, the
source fetch, and the inner `syncContactsToNotion()` call. -/
structure SchedEnv where
  getExisting : Except String (List String)
  getGoogle : Except String (List Contact)
  innerSync : Except String Unit

/-- The body shared by both variants of `continueSyncIfNeeded`: query
sink, fetch source, count the remaining backlog; if zero, remove the
trigger and return, else run the sync.  Any exception from a
collaborator propagates out of the body. -/
def continueSyncBody (env : SchedEnv) : Except String (List String) :=
  match env.getExisting with
  | .error e => .error e
  | .ok existing =>
    match env.getGoogle with
    | .error e => .error e
    | .ok google =>
      let remaining := (google.filter (fun c => !(existing.contains c.resourceName))).length
      if remaining = 0 then
        .ok ["All synced! Removing trigger.", "Auto-sync stopped."]
      else
        match env.innerSync with
        | .error e => .error e
        | .ok _ => .ok [toString remaining ++ " remaining. Continuing..."]

/-- `continueSyncIfNeeded` of the retry variant: the whole body is
wrapped in `try { ... } catch (e) { Logger.log(...) }`, so an exception
is converted into log lines and never escapes. -/
def continueSyncRetryVariant (env : SchedEnv) : Except String (List String) :=
  match continueSyncBody env with
  | .ok logs => .ok logs
  | .error e => .ok ["Error in continueSyncIfNeeded: " ++ e, "Will retry in 10 minutes."]

/-- `continueSyncIfNeeded` of the optimized variant: the body runs with
no try/catch, so a collaborator's exception propagates out of the
scheduled invocation. -/
def continueSyncOptVariant (env : SchedEnv) : Except String (List String) :=
  continueSyncBody env

/-! ## Checkpoint store adapter -/

/-- Modelled from the spec: the Checkpoint Store Adapter (spec section
4.1) belongs to the repository's caching sync variant, which is not
under `src/`; only the spec describes it.  A checkpoint is the
serialized, paginated representation of an identity set: fixed-size
pages of identity keys plus a manifest entry recording the total
count. -/
structure CheckpointStore where
  pages : List (List String)
  count : Nat
deriving DecidableEq, Repr

/-- Modelled from the spec: a store holding no checkpoint. -/
def freshCheckpointStore : CheckpointStore :=
  ⟨[], 0⟩

/-- Modelled from the spec: `load()` reconstructs the identity set by
reading `ceil(count / pageSize)` pages and concatenating them. -/
def checkpointLoad (pageSize : Nat) (s : CheckpointStore) : List String :=
  ((s.pages.take ((s.count + pageSize - 1) / pageSize)).flatten)

/-- Modelled from the spec: `append(newKeys)` adds the new keys to the
cached identity set (a set union — keys already present are not
duplicated) and re-serializes it into fixed-size pages plus the updated
total count. -/
def checkpointAppend (pageSize : Nat) (s : CheckpointStore)
    (newKeys : List String) : CheckpointStore :=
  let old := checkpointLoad pageSize s
  let merged := old ++ newKeys.filter (fun k => !(old.contains k))
  ⟨chunkList pageSize merged, merged.length⟩

/-! ## Supporting lemmas -/

lemma classifyResponses_eq (ok : Contact → Bool) (l : List Contact) :
    classifyResponses ok l = (l.countP ok, l.filter (fun c => !ok c)) := by
  induction l with
  | nil => simp [classifyResponses]
  | cons c rest ih =>
    simp only [classifyResponses, ih, List.countP_cons, List.filter_cons]
    cases h : ok c <;> simp [h]

lemma seqFallback_total (fetchOne : Contact → FetchResult) (l : List Contact) :
    (seqFallback fetchOne l).1 + (seqFallback fetchOne l).2.length = l.length := by
  induction l with
  | nil => simp [seqFallback]
  | cons c rest ih =>
    simp only [seqFallback, List.length_cons]
    cases h : fetchOne c with
    | status code =>
      by_cases hc : code = 200 <;> simp [hc] <;> omega
    | raised msg => simp; omega

lemma seqFallback_failed_mem (fetchOne : Contact → FetchResult) (l : List Contact)
    (c : Contact) (hc : c ∈ (seqFallback fetchOne l).2) : c ∈ l := by
  induction l with
  | nil => simp [seqFallback] at hc
  | cons d rest ih =>
    simp only [seqFallback] at hc
    cases h : fetchOne d with
    | status code =>
      rw [h] at hc
      by_cases h200 : code = 200
      · simp [h200] at hc
        exact List.mem_cons_of_mem d (ih hc)
      · simp [h200] at hc
        rcases hc with hc | hc
        · simp [hc]
        · exact List.mem_cons_of_mem d (ih hc)
    | raised msg =>
      rw [h] at hc
      simp at hc
      rcases hc with hc | hc
      · simp [hc]
      · exact List.mem_cons_of_mem d (ih hc)

lemma classifyResponses_total (ok : Contact → Bool) (l : List Contact) :
    (classifyResponses ok l).1 + (classifyResponses ok l).2.length = l.length := by
  induction l with
  | nil => simp [classifyResponses]
  | cons c rest ih =>
    simp only [classifyResponses]
    cases h : ok c <;> simp [h] <;> omega

lemma classifyResponses_failed_mem (ok : Contact → Bool) (l : List Contact)
    (c : Contact) (hc : c ∈ (classifyResponses ok l).2) : c ∈ l := by
  rw [classifyResponses_eq] at hc
  exact List.mem_of_mem_filter hc

lemma classifyResponses_failed_of_mem (ok : Contact → Bool) (l : List Contact)
    (c : Contact) (hc : c ∈ l) (hfail : ok c = false) :
    c ∈ (classifyResponses ok l).2 := by
  rw [classifyResponses_eq]
  simpa [List.mem_filter, hfail] using hc

lemma retryAux_always_fails (respond : Nat → Contact → Nat) (r : Contact)
    (hfail : ∀ a, respond a r ≠ 200) :
    ∀ (rem attempt : Nat) (toRetry : List Contact), r ∈ toRetry →
      (retryAux respond rem attempt toRetry).trace.length = rem ∧
      (∀ g ∈ (retryAux respond rem attempt toRetry).trace, r ∈ g) ∧
      r ∈ (retryAux respond rem attempt toRetry).finalRetry := by
  intro rem
  induction rem with
  | zero =>
    intro attempt toRetry hr
    simp only [retryAux]
    exact ⟨rfl, by simp, hr⟩
  | succ n ih =>
    intro attempt toRetry hr
    match toRetry, hr with
    | c :: rest, hr =>
      simp only [retryAux]
      have hfr : r ∈ (classifyResponses (fun x => respond attempt x == 200) (c :: rest)).2 :=
        classifyResponses_failed_of_mem _ _ r hr (by simp [hfail attempt])
      have hrec := ih (attempt + 1) _ hfr
      refine ⟨by simp [hrec.1], ?_, hrec.2.2⟩
      intro g hg
      rcases List.mem_cons.mp hg with h | h
      · subst h; exact hr
      · exact hrec.2.1 g h

lemma retryAux_trace_nonempty_head (respond : Nat → Contact → Nat)
    (rem a : Nat) (l : List Contact)
    (h : (retryAux respond rem a l).trace ≠ []) :
    (retryAux respond rem a l).trace.head? = some l := by
  match rem, l with
  | 0, l => simp [retryAux] at h
  | n + 1, [] => simp [retryAux] at h
  | n + 1, c :: rest => simp [retryAux]

lemma retryAux_trace_mem (respond : Nat → Contact → Nat) :
    ∀ (rem attempt : Nat) (l : List Contact) (g : List Contact),
      g ∈ (retryAux respond rem attempt l).trace → ∀ x ∈ g, x ∈ l := by
  intro rem
  induction rem with
  | zero => intro a l g hg; simp [retryAux] at hg
  | succ n ih =>
    intro a l g hg x hx
    match l with
    | [] => simp [retryAux] at hg
    | c :: rest =>
      simp only [retryAux] at hg
      rcases List.mem_cons.mp hg with h | h
      · subst h; exact hx
      · exact classifyResponses_failed_mem _ _ x (ih (a + 1) _ g h x hx)

lemma ceilDiv_shift (w N : Nat) (hw : 0 < w) (hN : 0 < N) :
    (N - w + w - 1) / w + 1 = (N + w - 1) / w := by
  by_cases h : N ≤ w
  · have h1 : N - w = 0 := by omega
    have h2 : (w - 1) / w = 0 := Nat.div_eq_of_lt (by omega)
    have h3 : (N + w - 1) / w = 1 :=
      Nat.div_eq_of_lt_le (by omega) (by omega)
    rw [h1, Nat.zero_add, h2, h3]
  · have h2 : N + w - 1 = (N - 1) + w := by omega
    have h3 : N - w + w - 1 = N - 1 := by omega
    rw [h2, h3, Nat.add_div_right _ hw]

lemma chunkAux_flatten {α : Type} (w : Nat) (hw : 0 < w) :
    ∀ (fuel : Nat) (l : List α), l.length ≤ fuel →
      (chunkAux w fuel l).flatten = l := by
  intro fuel
  induction fuel with
  | zero =>
    intro l hl
    have : l = [] := List.eq_nil_of_length_eq_zero (Nat.le_zero.mp hl)
    subst this
    simp [chunkAux]
  | succ n ih =>
    intro l hl
    match l with
    | [] => simp [chunkAux]
    | x :: xs =>
      simp only [chunkAux, List.flatten_cons]
      rw [ih]
      · exact List.take_append_drop w (x :: xs)
      · rw [List.length_drop]
        simp only [List.length_cons] at hl ⊢
        omega

lemma chunkAux_length {α : Type} (w : Nat) (hw : 0 < w) :
    ∀ (fuel : Nat) (l : List α), l.length ≤ fuel →
      (chunkAux w fuel l).length = (l.length + w - 1) / w := by
  intro fuel
  induction fuel with
  | zero =>
    intro l hl
    have : l = [] := List.eq_nil_of_length_eq_zero (Nat.le_zero.mp hl)
    subst this
    simp only [chunkAux, List.length_nil, List.length, Nat.zero_add]
    exact (Nat.div_eq_of_lt (by omega)).symm
  | succ n ih =>
    intro l hl
    match l with
    | [] =>
      simp only [chunkAux, List.length_nil, List.length, Nat.zero_add]
      exact (Nat.div_eq_of_lt (by omega)).symm
    | x :: xs =>
      simp only [chunkAux, List.length_cons]
      rw [ih _ (by rw [List.length_drop]; simp only [List.length_cons] at hl ⊢; omega)]
      rw [List.length_drop]
      exact ceilDiv_shift w (x :: xs).length hw (by simp)

lemma chunkAux_mem_length {α : Type} (w : Nat) :
    ∀ (fuel : Nat) (l : List α) (g : List α), g ∈ chunkAux w fuel l →
      g.length ≤ w := by
  intro fuel
  induction fuel with
  | zero => intro l g hg; simp [chunkAux] at hg
  | succ n ih =>
    intro l g hg
    match l with
    | [] => simp [chunkAux] at hg
    | x :: xs =>
      simp only [chunkAux] at hg
      rcases List.mem_cons.mp hg with h | h
      · subst h
        simp
      · exact ih _ g h

lemma syncLoopAux_over (B w : Nat) (dur : Nat → Nat) (fuel t : Nat)
    (l : List Contact) (h : B < t) :
    syncLoopAux B w dur fuel t l = ⟨[], t⟩ := by
  cases fuel with
  | zero => cases l <;> simp [syncLoopAux]
  | succ n => cases l <;> simp [syncLoopAux, h]

lemma syncLoopAux_budget (B D w : Nat) :
    ∀ (fuel : Nat) (dur : Nat → Nat) (t : Nat) (l : List Contact),
      t ≤ B → (∀ k, dur k ≤ D) →
      (syncLoopAux B w dur fuel t l).finalElapsed ≤ B + D := by
  intro fuel
  induction fuel with
  | zero => intro dur t l ht hD; cases l <;> simp [syncLoopAux] <;> omega
  | succ n ih =>
    intro dur t l ht hD
    match l with
    | [] => simp [syncLoopAux]; omega
    | c :: rest =>
      simp only [syncLoopAux]
      rw [if_neg (by omega)]
      simp only []
      by_cases h2 : t + dur 0 ≤ B
      · exact ih _ _ _ h2 (fun k => hD (k + 1))
      · rw [syncLoopAux_over B w _ n _ _ (by omega)]
        have := hD 0
        simp
        omega

lemma syncLoopAux_mem (B w : Nat) :
    ∀ (fuel : Nat) (dur : Nat → Nat) (t : Nat) (l : List Contact) (g : List Contact),
      g ∈ (syncLoopAux B w dur fuel t l).groups → ∀ x ∈ g, x ∈ l := by
  intro fuel
  induction fuel with
  | zero => intro dur t l g hg; cases l <;> simp [syncLoopAux] at hg
  | succ n ih =>
    intro dur t l g hg x hx
    match l with
    | [] => simp [syncLoopAux] at hg
    | c :: rest =>
      simp only [syncLoopAux] at hg
      by_cases hB : B < t
      · rw [if_pos hB] at hg
        simp at hg
      · rw [if_neg hB] at hg
        simp only [] at hg
        rcases List.mem_cons.mp hg with h | h
        · subst h
          exact List.mem_of_mem_take hx
        · exact List.mem_of_mem_drop (ih _ _ _ g h x hx)

lemma syncLoopAux_groups_eq (B w : Nat) (hw : 0 < w) :
    ∀ (fuel : Nat) (dur : Nat → Nat) (t : Nat) (l : List Contact),
      l.length ≤ fuel →
      (∀ j, j ≤ l.length → t + ∑ i ∈ Finset.range j, dur i ≤ B) →
      (syncLoopAux B w dur fuel t l).groups = chunkAux w fuel l := by
  intro fuel
  induction fuel with
  | zero =>
    intro dur t l hl hB
    have : l = [] := List.eq_nil_of_length_eq_zero (Nat.le_zero.mp hl)
    subst this
    simp [syncLoopAux, chunkAux]
  | succ n ih =>
    intro dur t l hl hB
    match l with
    | [] => simp [syncLoopAux, chunkAux]
    | c :: rest =>
      have ht : t ≤ B := by simpa using hB 0 (by omega)
      simp only [syncLoopAux, chunkAux]
      rw [if_neg (by omega)]
      simp only []
      congr 1
      apply ih
      · rw [List.length_drop]
        simp only [List.length_cons] at hl ⊢
        omega
      · intro j hj
        have hj1 : j + 1 ≤ (c :: rest).length := by
          rw [List.length_drop] at hj
          simp only [List.length_cons] at hj ⊢
          omega
        have hs := hB (j + 1) hj1
        rw [Finset.sum_range_succ'] at hs
        omega

lemma retryAux_trace_step (respond : Nat → Contact → Nat) :
    ∀ (rem attempt : Nat) (l : List Contact) (j : Nat) (gj gj1 : List Contact),
      (retryAux respond rem attempt l).trace[j]? = some gj →
      (retryAux respond rem attempt l).trace[j + 1]? = some gj1 →
      gj1 = (classifyResponses (fun c => respond (attempt + j) c == 200) gj).2 := by
  intro rem
  induction rem with
  | zero => intro a l j gj gj1 hj _; simp [retryAux] at hj
  | succ n ih =>
    intro a l j gj gj1 hj hj1
    match l with
    | [] => simp [retryAux] at hj
    | c :: rest =>
      simp only [retryAux] at hj hj1
      cases j with
      | zero =>
        simp at hj
        have h1 : (retryAux respond n (a + 1)
            (classifyResponses (fun x => respond a x == 200) (c :: rest)).2).trace ≠ [] := by
          intro hemp
          rw [List.getElem?_cons_succ, hemp] at hj1
          simp at hj1
        have hhead := retryAux_trace_nonempty_head respond n (a + 1) _ h1
        rw [List.getElem?_cons_succ] at hj1
        obtain ⟨tr, htr⟩ : ∃ tr,
            (retryAux respond n (a + 1)
              (classifyResponses (fun x => respond a x == 200) (c :: rest)).2).trace =
            (classifyResponses (fun x => respond a x == 200) (c :: rest)).2 :: tr := by
          cases htrace : (retryAux respond n (a + 1)
              (classifyResponses (fun x => respond a x == 200) (c :: rest)).2).trace with
          | nil => exact absurd htrace h1
          | cons d tr =>
            rw [htrace] at hhead
            simp at hhead
            exact ⟨tr, by rw [hhead]⟩
        rw [htr] at hj1
        simp at hj1
        subst hj
        simpa using hj1.symm
      | succ k =>
        rw [List.getElem?_cons_succ] at hj hj1
        have hstep := ih (a + 1) _ k gj gj1 hj hj1
        rw [hstep]
        have hidx : a + 1 + k = a + (k + 1) := by omega
        rw [hidx]

lemma classifyResponsesOpt_eq (respond : Contact → Nat × Option String) (l : List Contact) :
    classifyResponsesOpt respond l =
      (l.countP (fun c => (respond c).1 == 200),
       l.countP (fun c => !((respond c).1 == 200)),
       (l.filter (fun c => !((respond c).1 == 200) && !((respond c).1 == 429))).map
         (fun c => errorLineFor c (respond c).1 (respond c).2)) := by
  induction l with
  | nil => simp [classifyResponsesOpt]
  | cons c rest ih =>
    simp only [classifyResponsesOpt, ih, List.countP_cons, List.filter_cons]
    by_cases h200 : (respond c).1 = 200
    · simp [h200]
    · by_cases h429 : (respond c).1 = 429
      · simp [h200, h429]
      · simp [h200, h429]

lemma runRequests_mem (B w maxR t : Nat) (dur : Nat → Nat)
    (respond : Nat → Contact → Nat) (existing : List String)
    (google : List Contact) (c : Contact)
    (hc : c ∈ runRequests B w maxR t dur respond existing google) :
    c ∈ contactsToSync existing google := by
  simp only [runRequests, List.mem_flatten, List.mem_map] at hc
  obtain ⟨l, ⟨g, hg, rfl⟩, hcl⟩ := hc
  obtain ⟨tg, htg, hctg⟩ := List.mem_flatten.mp hcl
  have hcg : c ∈ g := retryAux_trace_mem respond maxR 1 g tg htg c hctg
  exact syncLoopAux_mem B w _ dur t _ g hg c hcg

/-! ## Claim theorems -/

/-- C4: for every pending list of length N and every concurrency width
`w > 0`, one full pass of the dispatch loop (no batch-window boundary
over budget) issues exactly N create requests, partitioned into
`ceil(N/w)` sequential groups, each of size at most `w`, each group one
`fetchAll` window, settled before the next group starts (the groups are
processed in list order). -/
theorem dispatch_partition_complete (w : Nat) (pending : List Contact)
    (B t : Nat) (dur : Nat → Nat) (hw : 0 < w)
    (hB : ∀ j, j ≤ pending.length → t + ∑ i ∈ Finset.range j, dur i ≤ B) :
    (syncLoop B w dur t pending).groups = chunkList w pending ∧
    (chunkList w pending).flatten = pending ∧
    (chunkList w pending).length = (pending.length + w - 1) / w ∧
    (∀ g ∈ chunkList w pending, g.length ≤ w) ∧
    ((chunkList w pending).map List.length).sum = pending.length := by
  refine ⟨syncLoopAux_groups_eq B w hw pending.length dur t pending le_rfl hB,
    chunkAux_flatten w hw pending.length pending le_rfl,
    chunkAux_length w hw pending.length pending le_rfl,
    fun g hg => chunkAux_mem_length w pending.length pending g hg, ?_⟩
  have hf := chunkAux_flatten w hw pending.length pending le_rfl
  calc ((chunkList w pending).map List.length).sum
      = (chunkList w pending).flatten.length := (List.length_flatten _).symm
    _ = pending.length := by rw [chunkList, hf]

/-- Instance of `dispatch_partition_complete` at a concrete input
(three pending contacts, width two, zero batch durations). -/
theorem dispatch_partition_complete_inst :
    (syncLoop 100 2 (fun _ => 0) 0
      [mkContact "people/w1", mkContact "people/w2", mkContact "people/w3"]).groups =
      chunkList 2 [mkContact "people/w1", mkContact "people/w2", mkContact "people/w3"] ∧
    ((chunkList 2 [mkContact "people/w1", mkContact "people/w2",
      mkContact "people/w3"]).map List.length).sum = 3 := by
  have h := dispatch_partition_complete 2
    [mkContact "people/w1", mkContact "people/w2", mkContact "people/w3"]
    100 0 (fun _ => 0) (by decide) (fun j hj => by simp)
  exact ⟨h.1, h.2.2.2.2⟩

/-- C3: the dispatch loop checks elapsed time at every batch-window
boundary — once elapsed time exceeds the budget `B` it dispatches no
further batch and returns at once — and whenever the loop is entered
within budget and every batch window (requests, retries and inter-batch
pause) lasts at most `D`, the run returns with elapsed time at most
`B + D`.  The loop is a total function, so it never runs
indefinitely. -/
theorem syncLoop_budget_respected (B D w t : Nat) (dur : Nat → Nat)
    (pending : List Contact) (hD : ∀ k, dur k ≤ D) :
    (B < t → syncLoop B w dur t pending = ⟨[], t⟩) ∧
    (t ≤ B → (syncLoop B w dur t pending).finalElapsed ≤ B + D) := by
  constructor
  · intro h
    exact syncLoopAux_over B w dur pending.length t pending h
  · intro h
    exact syncLoopAux_budget B D w pending.length dur t pending h hD

/-- Instance of `syncLoop_budget_respected`: over budget the loop
dispatches nothing; within budget the final elapsed time is bounded by
budget plus one window. -/
theorem syncLoop_budget_respected_inst :
    syncLoop 10 5 (fun _ => 3) 20 [mkContact "people/b1"] = ⟨[], 20⟩ ∧
    (syncLoop 10 5 (fun _ => 3) 0 [mkContact "people/b1"]).finalElapsed ≤ 13 := by
  constructor
  · exact (syncLoop_budget_respected 10 3 5 20 (fun _ => 3) [mkContact "people/b1"]
      (fun _ => le_refl 3)).1 (by omega)
  · exact (syncLoop_budget_respected 10 3 5 0 (fun _ => 3) [mkContact "people/b1"]
      (fun _ => le_refl 3)).2 (by omega)

/-- C1: the pending set handed to the dispatcher is exactly the source
records whose `resourceName` is absent from the existing-contacts map,
in source enumeration order (it equals the order-preserving filter of
the source list and is a sublist of it), and for an identity key `k`
already present in the synced set, no create request of the whole run —
across all batch windows and all retry attempts, for any time oracle
and any response oracle — is issued for `k`. -/
theorem contactsToSync_no_recreate (existing : List String) (google : List Contact)
    (k : String) (hk : k ∈ existing) (B w maxR t : Nat) (dur : Nat → Nat)
    (respond : Nat → Contact → Nat) :
    contactsToSync existing google =
      google.filter (fun c => decide (c.resourceName ∉ existing)) ∧
    (contactsToSync existing google).Sublist google ∧
    (∀ c, c ∈ contactsToSync existing google ↔
      c ∈ google ∧ c.resourceName ∉ existing) ∧
    (∀ c ∈ runRequests B w maxR t dur respond existing google,
      c.resourceName ≠ k) := by
  have hfe : ∀ c : Contact,
      (!(existing.contains c.resourceName)) = decide (c.resourceName ∉ existing) := by
    intro c
    by_cases h : c.resourceName ∈ existing <;> simp [h]
  have hiff : ∀ c : Contact, c ∈ contactsToSync existing google ↔
      c ∈ google ∧ c.resourceName ∉ existing := by
    intro c
    rw [contactsToSync, List.mem_filter]
    constructor
    · rintro ⟨h1, h2⟩
      refine ⟨h1, ?_⟩
      rw [hfe c] at h2
      simpa using h2
    · rintro ⟨h1, h2⟩
      refine ⟨h1, ?_⟩
      rw [hfe c]
      simpa using h2
  refine ⟨List.filter_congr (fun c _ => hfe c), List.filter_sublist _, hiff, ?_⟩
  intro c hc hck
  have hmem := (hiff c).mp (runRequests_mem B w maxR t dur respond existing google c hc)
  rw [hck] at hmem
  exact hmem.2 hk

/-- Instance of `contactsToSync_no_recreate`: with `people/a` already
synced, the pending set is only `people/b` and no create request of the
run carries `people/a`. -/
theorem contactsToSync_no_recreate_inst :
    contactsToSync ["people/a"] [mkContact "people/a", mkContact "people/b"] =
      [mkContact "people/b"] ∧
    (∀ c ∈ runRequests 100 5 3 0 (fun _ => 0) (fun _ _ => 200) ["people/a"]
      [mkContact "people/a", mkContact "people/b"], c.resourceName ≠ "people/a") := by
  constructor
  · decide
  · exact (contactsToSync_no_recreate ["people/a"]
      [mkContact "people/a", mkContact "people/b"] "people/a" (by decide)
      100 5 3 0 (fun _ => 0) (fun _ _ => 200)).2.2.2

/-- C2: for every batch and every retry ceiling `maxR ≥ 1`, a record
whose every creation attempt returns a non-success status is dispatched
on every one of the exactly `maxR` attempts of the one
`processBatchWithRetry` call (the first dispatched list is the whole
batch, each later one is exactly the failed subset of the previous
attempt), and after the last attempt it sits in the final retry list,
whose length is the returned failed count (so it is counted failed and
not dispatched again in this run). -/
theorem processBatchWithRetry_bounded (respond : Nat → Contact → Nat)
    (maxR : Nat) (batch : List Contact) (r : Contact)
    (hmax : 1 ≤ maxR) (hr : r ∈ batch) (hfail : ∀ a, respond a r ≠ 200) :
    (retryAux respond maxR 1 batch).trace.length = maxR ∧
    (∀ g ∈ (retryAux respond maxR 1 batch).trace, r ∈ g) ∧
    r ∈ (retryAux respond maxR 1 batch).finalRetry ∧
    1 ≤ (processBatchWithRetry respond maxR batch).2 ∧
    (processBatchWithRetry respond maxR batch).2 =
      (retryAux respond maxR 1 batch).finalRetry.length ∧
    (retryAux respond maxR 1 batch).trace.head? = some batch ∧
    (∀ j gj gj1, (retryAux respond maxR 1 batch).trace[j]? = some gj →
      (retryAux respond maxR 1 batch).trace[j + 1]? = some gj1 →
      gj1 = (classifyResponses (fun c => respond (1 + j) c == 200) gj).2) := by
  have h := retryAux_always_fails respond r hfail maxR 1 batch hr
  refine ⟨h.1, h.2.1, h.2.2, ?_, rfl, ?_, ?_⟩
  · have hpos : 0 < (retryAux respond maxR 1 batch).finalRetry.length :=
      List.length_pos.mpr (List.ne_nil_of_mem h.2.2)
    simpa [processBatchWithRetry] using hpos
  · apply retryAux_trace_nonempty_head
    intro hemp
    rw [hemp] at h
    simp at h
    omega
  · intro j gj gj1 hj hj1
    exact retryAux_trace_step respond maxR 1 batch j gj gj1 hj hj1

/-- Scenario instance of `processBatchWithRetry_bounded`: five records,
record three always rate-limited, the rest succeed at once; with retry
ceiling 3 the record is dispatched on all 3 attempts, ends in the final
retry list, and the call returns created 4, failed 1. -/
theorem processBatchWithRetry_bounded_scenario :
    (retryAux (fun _ c => if c.resourceName == "people/c3" then 429 else 200) 3 1
      [mkContact "people/c1", mkContact "people/c2", mkContact "people/c3",
       mkContact "people/c4", mkContact "people/c5"]).trace.length = 3 ∧
    (∀ g ∈ (retryAux (fun _ c => if c.resourceName == "people/c3" then 429 else 200) 3 1
      [mkContact "people/c1", mkContact "people/c2", mkContact "people/c3",
       mkContact "people/c4", mkContact "people/c5"]).trace,
      mkContact "people/c3" ∈ g) ∧
    mkContact "people/c3" ∈
      (retryAux (fun _ c => if c.resourceName == "people/c3" then 429 else 200) 3 1
        [mkContact "people/c1", mkContact "people/c2", mkContact "people/c3",
         mkContact "people/c4", mkContact "people/c5"]).finalRetry ∧
    processBatchWithRetry (fun _ c => if c.resourceName == "people/c3" then 429 else 200) 3
      [mkContact "people/c1", mkContact "people/c2", mkContact "people/c3",
       mkContact "people/c4", mkContact "people/c5"] = (4, 1) := by
  have h := processBatchWithRetry_bounded
    (fun _ c => if c.resourceName == "people/c3" then 429 else 200) 3
    [mkContact "people/c1", mkContact "people/c2", mkContact "people/c3",
     mkContact "people/c4", mkContact "people/c5"]
    (mkContact "people/c3") (by decide) (by decide) (fun _ => by simp [mkContact])
  exact ⟨h.1, h.2.1, h.2.2.1, by decide⟩

/-- C5 (counterexample): in the retry variant's `processBatch`, a
response with status 500 — a non-success, non-rate-limit status — is
classified retryable-failed but no diagnostic line whatsoever is
emitted by the dispatch call (the log list is empty), contradicting the
claim that any such status comes with a diagnostic line naming the
record's display identity. -/
theorem processBatch_no_error_line_cex :
    (processBatchOnce (Except.ok (fun _ => 500)) (fun _ => FetchResult.status 200)
      [mkContact "people/e1"]).2.2 = ([] : List String) ∧
    (processBatchOnce (Except.ok (fun _ => 500)) (fun _ => FetchResult.status 200)
      [mkContact "people/e1"]).2.1 = [mkContact "people/e1"] ∧
    (500 : Nat) ≠ 200 ∧ (500 : Nat) ≠ 429 := by
  refine ⟨rfl, rfl, by decide, by decide⟩

/-- C5 (amended): in the optimized variant's response loop, a success
status counts the record created, a rate-limit (429) status counts it
failed without an error line, and any other status counts it failed and
emits exactly one diagnostic line built from the record's display
identity and the response's error detail; in the retry variant's
`processBatch`, by contrast, the settled parallel path emits no log
line at all — every non-success status is classified retryable-failed
silently. -/
theorem dispatcher_classification_amended (respond : Contact → Nat × Option String)
    (batch : List Contact) (code : Contact → Nat)
    (fetchOne : Contact → FetchResult) (seqBatch : List Contact) :
    (classifyResponsesOpt respond batch).1 =
      batch.countP (fun c => (respond c).1 == 200) ∧
    (classifyResponsesOpt respond batch).2.1 =
      batch.countP (fun c => !((respond c).1 == 200)) ∧
    (classifyResponsesOpt respond batch).2.2 =
      (batch.filter (fun c => !((respond c).1 == 200) && !((respond c).1 == 429))).map
        (fun c => errorLineFor c (respond c).1 (respond c).2) ∧
    (processBatchOnce (Except.ok code) fetchOne seqBatch).2.2 = [] := by
  have h := classifyResponsesOpt_eq respond batch
  refine ⟨?_, ?_, ?_, rfl⟩
  · rw [h]
  · rw [h]
  · rw [h]

/-- C6 (counterexample): with the credential present but the
target-database identifier left at the script's own placeholder value
(the unconfigured `NOTION_DATABASE_ID`), the run does not raise — it
proceeds to query the sink and issue create requests against the
placeholder URL — contradicting the claim that a missing
target-collection configuration raises immediately. -/
theorem sync_missing_dbid_no_raise_cex :
    exceptOk (syncContactsToNotionRun (some "secret_k") "YOUR_DATABASE_ID_HERE" []
      [mkContact "people/m1"] 300000 5 3 0 (fun _ => 0) (fun _ _ => 200)) = true ∧
    syncContactsToNotionRun (some "secret_k") "YOUR_DATABASE_ID_HERE" []
      [mkContact "people/m1"] 300000 5 3 0 (fun _ => 0) (fun _ _ => 200) =
      Except.ok [SyncEvent.queryExisting (queryUrl "YOUR_DATABASE_ID_HERE"),
        SyncEvent.fetchSource,
        SyncEvent.createRequest pagesUrl "YOUR_DATABASE_ID_HERE" (mkContact "people/m1")] := by
  exact ⟨rfl, rfl⟩

/-- C6 (amended): `syncContactsToNotion` raises immediately — before
the sink query, the source fetch, and any create request — exactly when
the credential is missing or empty; when the credential is present the
run never raises, whatever statuses the create requests return (every
per-record or per-batch failure is recoverable), and no check of the
database identifier exists. -/
theorem sync_fatal_credential_only (apiKey : Option String) (dbId : String)
    (existing : List String) (google : List Contact) (B w maxR t : Nat)
    (dur : Nat → Nat) (respond : Nat → Contact → Nat) :
    (jsFalsyKey apiKey = true →
      syncContactsToNotionRun apiKey dbId existing google B w maxR t dur respond =
        Except.error "NOTION_API_KEY not set in Script Properties.") ∧
    (jsFalsyKey apiKey = false →
      syncContactsToNotionRun apiKey dbId existing google B w maxR t dur respond =
        Except.ok (SyncEvent.queryExisting (queryUrl dbId) :: SyncEvent.fetchSource ::
          (runRequests B w maxR t dur respond existing google).map
            (fun c => SyncEvent.createRequest pagesUrl dbId c))) := by
  constructor <;> intro h <;> simp [syncContactsToNotionRun, h]

/-- Instance of `sync_fatal_credential_only`: an absent credential
raises with no step executed; a present credential yields a normal
run. -/
theorem sync_fatal_credential_only_inst :
    syncContactsToNotionRun none "db" [] [] 1 1 1 0 (fun _ => 0) (fun _ _ => 200) =
      Except.error "NOTION_API_KEY not set in Script Properties." ∧
    exceptOk (syncContactsToNotionRun (some "secret_w") "db" [] [] 1 1 1 0
      (fun _ => 0) (fun _ _ => 200)) = true := by
  constructor
  · exact (sync_fatal_credential_only none "db" [] [] 1 1 1 0
      (fun _ => 0) (fun _ _ => 200)).1 rfl
  · rw [(sync_fatal_credential_only (some "secret_w") "db" [] [] 1 1 1 0
      (fun _ => 0) (fun _ _ => 200)).2 rfl]
    rfl

/-- C7 (counterexample): the optimized variant's `continueSyncIfNeeded`
has no try/catch, so an exception thrown by a collaborator (here the
sink query) propagates out of the scheduled invocation, contradicting
the claim that a scheduled invocation never terminates by raising. -/
theorem continueSync_opt_raises_cex :
    continueSyncOptVariant
      ⟨Except.error "DNS error: api.notion.com unreachable", Except.ok [], Except.ok ()⟩ =
      Except.error "DNS error: api.notion.com unreachable" := rfl

/-- C7 (amended): the retry variant's `continueSyncIfNeeded` wraps its
whole body in try/catch, so for every behaviour of its collaborators the
scheduled invocation returns normally (exceptions are converted to log
lines and never propagate). -/
theorem continueSync_retry_never_raises (env : SchedEnv) :
    ∃ logs, continueSyncRetryVariant env = Except.ok logs := by
  unfold continueSyncRetryVariant
  cases continueSyncBody env with
  | ok logs => exact ⟨logs, rfl⟩
  | error e => exact ⟨_, rfl⟩

/-- C8: appending a key sequence to a fresh checkpoint store and loading
through a fresh adapter over the same store returns exactly the appended
keys, for every page size `p > 0` — in particular across page-chunk
boundaries, since `load` reads `ceil(count/p)` pages. -/
theorem checkpoint_roundtrip (pageSize : Nat) (hp : 0 < pageSize)
    (keys : List String) :
    checkpointLoad pageSize (checkpointAppend pageSize freshCheckpointStore keys) =
      keys := by
  have happ : checkpointAppend pageSize freshCheckpointStore keys =
      ⟨chunkList pageSize keys, keys.length⟩ := by
    simp [checkpointAppend, checkpointLoad, freshCheckpointStore]
  rw [happ]
  simp only [checkpointLoad, chunkList]
  rw [← chunkAux_length pageSize hp keys.length keys le_rfl]
  rw [List.take_length]
  exact chunkAux_flatten pageSize hp keys.length keys le_rfl

/-- Instance of `checkpoint_roundtrip` crossing a page boundary: three
keys with page size two occupy two pages and reload exactly. -/
theorem checkpoint_roundtrip_inst :
    checkpointLoad 2 (checkpointAppend 2 freshCheckpointStore ["k1", "k2", "k3"]) =
      ["k1", "k2", "k3"] :=
  checkpoint_roundtrip 2 (by decide) ["k1", "k2", "k3"]

/-- C9: one attempt of `processBatch` classifies each input record
exactly once, on the parallel path and on the sequential-fallback path
alike: created plus failed equals the batch length, and every failed
contact comes from the input batch. -/
theorem processBatch_classifies_once (par : Except String (Contact → Nat))
    (fetchOne : Contact → FetchResult) (batch : List Contact) :
    (processBatchOnce par fetchOne batch).1 +
      (processBatchOnce par fetchOne batch).2.1.length = batch.length ∧
    (∀ c ∈ (processBatchOnce par fetchOne batch).2.1, c ∈ batch) := by
  cases par with
  | ok code =>
    constructor
    · simpa [processBatchOnce] using
        classifyResponses_total (fun c => code c == 200) batch
    · intro c hc
      simp only [processBatchOnce] at hc
      exact classifyResponses_failed_mem _ _ c hc
  | error msg =>
    constructor
    · simpa [processBatchOnce] using seqFallback_total fetchOne batch
    · intro c hc
      simp only [processBatchOnce] at hc
      exact seqFallback_failed_mem _ _ c hc

/-- C10: `buildNotionProperties` is total on any contact with a
`resourceName`: the produced property set always binds Name (with
fallback `"Unknown"` when no usable display name exists), Google
Contact ID, and Contact Link — so the field mapper never skips or
rejects a contact for lacking a display name. -/
theorem buildNotionProperties_total (c : Contact) :
    (buildNotionProperties c).lookup "Name" =
      some (PropValue.title (displayOf c)) ∧
    (buildNotionProperties c).lookup "Google Contact ID" =
      some (PropValue.richText c.resourceName) ∧
    (buildNotionProperties c).lookup "Contact Link" =
      some (PropValue.url (googleLink c.resourceName)) ∧
    (c.names.head?.bind GName.displayName = none ∨
      c.names.head?.bind GName.displayName = some "" →
      (buildNotionProperties c).lookup "Name" =
        some (PropValue.title "Unknown")) := by
  refine ⟨?_, ?_, ?_, ?_⟩
  · simp [buildNotionProperties, List.lookup]
  · simp [buildNotionProperties, List.lookup]
  · simp [buildNotionProperties, List.lookup]
  · intro h
    have hdisp : displayOf c = "Unknown" := by
      rcases h with h | h <;> simp [displayOf, h, jsOrStr]
    simp [buildNotionProperties, List.lookup, hdisp]

/-- Instance of `buildNotionProperties_total`: a contact with no name
record is mapped with Name `"Unknown"`, not rejected. -/
theorem buildNotionProperties_total_inst :
    (buildNotionProperties (mkContact "people/x")).lookup "Name" =
      some (PropValue.title "Unknown") :=
  (buildNotionProperties_total (mkContact "people/x")).2.2.2 (Or.inl rfl)
